import Mathlib

/-!
# Verification of the gobananas level editor core

A shallow embedding of the level-editor core of the `gobananas` 2D
platformer: the affine transform type `Mx` (a serializable wrapper around
the engine's 2x3 geometry matrix), the `Level` data model, the level
load/apply pipeline, the platform (block) drag-creation editor, the `Typer`
text-input widget, and the generic `Selector` manipulation helpers
(hit-testing, rotation dragging, deletion, and the spawn-point adapter).

Floating-point arithmetic on geometry is modelled over the reals; the
six-element matrix serialization is modelled at the bit level, with each
IEEE-754 double represented by its 64-bit pattern as a `Nat`.
-/

namespace Gobananas

/-! Section: The affine transform `Mx`

`Mx` wraps the engine's `GeoM`, a 2x3 affine matrix. A point `(x, y)` maps
to `(a*x + b*y + tx, c*x + d*y + ty)`. The zero value is the identity.
`Translate`, `Scale` and `Rotate` each post-compose the new operation onto
the existing transform (the new operation applies after the current one),
and `Concat other` applies `other` after the receiver.
-/

/-- A 2x3 affine matrix: row 0 is `[a, b, tx]`, row 1 is `[c, d, ty]`. -/
structure Mx where
  a : ℝ
  b : ℝ
  c : ℝ
  d : ℝ
  tx : ℝ
  ty : ℝ

/-- The identity transform (the zero value `Mx` in the source). -/
noncomputable def Mx.id : Mx := ⟨1, 0, 0, 1, 0, 0⟩

/-- Source `Apply(x, y)`: map a point through the transform. -/
noncomputable def Mx.apply (m : Mx) (x y : ℝ) : ℝ × ℝ :=
  (m.a * x + m.b * y + m.tx, m.c * x + m.d * y + m.ty)

/-- Source `Translate(dx, dy)`: translate after the current transform. -/
noncomputable def Mx.translate (m : Mx) (dx dy : ℝ) : Mx :=
  { m with tx := m.tx + dx, ty := m.ty + dy }

/-- Source `Scale(sx, sy)`: scale after the current transform. -/
noncomputable def Mx.scale (m : Mx) (sx sy : ℝ) : Mx :=
  ⟨sx * m.a, sx * m.b, sy * m.c, sy * m.d, sx * m.tx, sy * m.ty⟩

/-- Source `Rotate(theta)`: rotate counter-clockwise after the current transform. -/
noncomputable def Mx.rotate (m : Mx) (θ : ℝ) : Mx :=
  ⟨Real.cos θ * m.a - Real.sin θ * m.c,
   Real.cos θ * m.b - Real.sin θ * m.d,
   Real.sin θ * m.a + Real.cos θ * m.c,
   Real.sin θ * m.b + Real.cos θ * m.d,
   Real.cos θ * m.tx - Real.sin θ * m.ty,
   Real.sin θ * m.tx + Real.cos θ * m.ty⟩

/-- Matrix product `p * q`: the transform applying `q` first, then `p`.
`m.Concat(other)` in the source is `Mx.mul other m`. -/
noncomputable def Mx.mul (p q : Mx) : Mx :=
  ⟨p.a * q.a + p.b * q.c,
   p.a * q.b + p.b * q.d,
   p.c * q.a + p.d * q.c,
   p.c * q.b + p.d * q.d,
   p.a * q.tx + p.b * q.ty + p.tx,
   p.c * q.tx + p.d * q.ty + p.ty⟩

/-- Determinant of the linear part. -/
noncomputable def Mx.det (m : Mx) : ℝ := m.a * m.d - m.b * m.c

/-- Modelled from the spec: `Invert()` of the wrapped engine matrix is not
under `src/`; per the spec it computes the matrix inverse and fails if the
matrix is singular (the engine panics when the determinant is zero), so the
embedding returns `none` exactly on singular input. -/
noncomputable def Mx.invertOpt (m : Mx) : Option Mx :=
  if m.det = 0 then none
  else some
    ⟨m.d / m.det, -m.b / m.det, -m.c / m.det, m.a / m.det,
     (m.b * m.ty - m.d * m.tx) / m.det,
     (m.c * m.tx - m.a * m.ty) / m.det⟩

/-- Source `math.Atan2 y x` as the argument of the complex number `x + y*i`,
valued in `(-π, π]` with `atan2 0 0 = 0`, matching the Go convention. -/
noncomputable def atan2 (y x : ℝ) : ℝ := Complex.arg ⟨x, y⟩

/-- Source `B2Vec2.Normalize`: scale a vector to unit length; the zero vector is
left unchanged (the library returns early on vanishing length). -/
noncomputable def normalize (v : ℝ × ℝ) : ℝ × ℝ :=
  (v.1 / Real.sqrt (v.1 * v.1 + v.2 * v.2),
   v.2 / Real.sqrt (v.1 * v.1 + v.2 * v.2))

/-! Section: Matrix serialization (`Mx.GobEncode` / `Mx.GobDecode`)

`GobEncode` writes the six matrix elements in the order
`(0,0), (0,1), (0,2), (1,0), (1,1), (1,2)` — `a, b, tx, c, d, ty` — each as
the big-endian 8-byte image of its `math.Float64bits` pattern. Modelled
from the spec: the wrapped engine matrix's `Element`/`SetElement` are not
under `src/`; per the spec the matrix is a plain ordered 6-element numeric
sequence, so a matrix is represented here by the six IEEE-754 bit patterns
of its elements, each a `Nat` below `2 ^ 64`. Bytes are `Nat`s below 256.
-/

/-- The six IEEE-754 bit patterns of a transform's elements, in the
serialization order `a, b, tx, c, d, ty`. -/
structure MxBits where
  e00 : Nat
  e01 : Nat
  e02 : Nat
  e10 : Nat
  e11 : Nat
  e12 : Nat
  deriving Repr, DecidableEq

/-- Source `binary.BigEndian.PutUint64`: the eight big-endian bytes of a 64-bit
value. -/
def putUint64BE (n : Nat) : List Nat :=
  [n / 2 ^ 56 % 256, n / 2 ^ 48 % 256, n / 2 ^ 40 % 256, n / 2 ^ 32 % 256,
   n / 2 ^ 24 % 256, n / 2 ^ 16 % 256, n / 2 ^ 8 % 256, n % 256]

/-- Source `binary.BigEndian.Uint64`: read a big-endian 64-bit value from the
first eight bytes of a list. -/
def readUint64BE (bs : List Nat) : Nat :=
  (bs.take 8).foldl (fun acc b => acc * 256 + b) 0

/-- Source `Mx.GobEncode`: the 48-byte big-endian encoding of the six elements. -/
def gobEncode (m : MxBits) : List Nat :=
  putUint64BE m.e00 ++ putUint64BE m.e01 ++ putUint64BE m.e02 ++
  putUint64BE m.e10 ++ putUint64BE m.e11 ++ putUint64BE m.e12

/-- Source `Mx.GobDecode`: set each element from the eight bytes at offset `8*i`. -/
def gobDecode (bs : List Nat) : MxBits :=
  ⟨readUint64BE bs, readUint64BE (bs.drop 8), readUint64BE (bs.drop 16),
   readUint64BE (bs.drop 24), readUint64BE (bs.drop 32),
   readUint64BE (bs.drop 40)⟩

/-- A 64-bit pattern denotes a finite double: it is in range and its
exponent field is not all-ones (which would denote an infinity or NaN). -/
def IsFiniteBits (n : Nat) : Prop := n < 2 ^ 64 ∧ n / 2 ^ 52 % 2 ^ 11 ≠ 2047

instance (n : Nat) : Decidable (IsFiniteBits n) := by
  unfold IsFiniteBits; infer_instance

/-- All six elements of a serialized matrix are finite doubles. -/
def MxBits.Finite (m : MxBits) : Prop :=
  IsFiniteBits m.e00 ∧ IsFiniteBits m.e01 ∧ IsFiniteBits m.e02 ∧
  IsFiniteBits m.e10 ∧ IsFiniteBits m.e11 ∧ IsFiniteBits m.e12

instance (m : MxBits) : Decidable m.Finite := by
  unfold MxBits.Finite; infer_instance

/-! Section: The `Level` data model

Blocks and art are heap-allocated in the source and referenced by pointer;
each carries a `pid` standing for its pointer, and the selector adapters
compare entries by `pid` (Go pointer equality). File-system, image, audio
and trigger loading are external effects; the file read by `Level.load` is
abstracted as a `LoadFile` value saying whether the open failed, the decode
failed, or a level was decoded successfully.
-/

/-- A platform block: a transform mapping the unit square centered at the
origin to the block's world rectangle. -/
structure Block where
  pid : Nat
  T : Mx

/-- A decorative art entry: a transform and a resource path. -/
structure Art where
  pid : Nat
  T : Mx
  path : String

/-- The serializable level: spawn point, blocks, art, optional background
art/audio, optional player art, and the trigger map (an association list of
trigger names). -/
structure Level where
  spawn : ℝ × ℝ
  blocks : List Block
  art : List Art
  bgArt : Option String
  bgAudio : Option String
  playerArt : Option String
  triggers : List (String × String)

/-- Source `NewLevel()`: the empty level with an (empty) allocated trigger map. -/
noncomputable def newLevel : Level :=
  ⟨(0, 0), [], [], none, none, none, []⟩

/-- The outcome of reading the file behind a `Level.load` call: the open can
fail, the decode can fail, or a level is decoded (resource loading of a
successfully decoded level is folded into the decoded value). -/
inductive LoadFile where
  | missing
  | malformed
  | ok (l : Level)

/-- The error class surfaced by `Level.load`. -/
inductive LoadErr where
  | openFailed
  | decodeFailed
  deriving Repr, DecidableEq

/-- Source `Level.load`: the receiver is first overwritten with `NewLevel()`, then
the file is opened and decoded into it. Returns the level state the
receiver holds afterwards together with the surfaced error, if any; note
the result never depends on the previous level. -/
noncomputable def levelLoad (_prev : Level) (f : LoadFile) :
    Level × Option LoadErr :=
  match f with
  | .missing => (newLevel, some .openFailed)
  | .malformed => (newLevel, some .decodeFailed)
  | .ok l => (l, none)

/-- Source `SaveAndLoadEditor.Update` on the frame a load path is submitted: run
`Level.load` on the editor's level; a load error is returned to the caller
(from where `Root.Update`, `ebiten.RunGame` and `main`'s `log.Fatalln`
terminate the process). Returns the resulting level and the update result. -/
noncomputable def saveLoadEditorUpdate (lvl : Level) (f : LoadFile) :
    Level × Except LoadErr Unit :=
  match levelLoad lvl f with
  | (l1, some e) => (l1, .error e)
  | (l1, none) => (l1, .ok ())

/-- Source `main` via `run`/`ebiten.RunGame`: a non-nil error returned from an
update terminates the process through `log.Fatalln`. -/
def processTerminates (r : Except LoadErr Unit) : Bool :=
  match r with
  | .error _ => true
  | .ok _ => false

/-- The default block geometry installed by `NewEditor` when the autosave
cannot be loaded: the unit square scaled by `(100, 0.5)`. -/
noncomputable def defaultBlockGeo : Mx := Mx.scale Mx.id 100 0.5

/-- Source `NewEditor`: load the autosave; on any failure fall back to a fresh
`NewLevel()` holding the single default block. Returns the editor's level. -/
noncomputable def newEditor (f : LoadFile) : Level :=
  match levelLoad newLevel f with
  | (l1, none) => l1
  | (_, some _) => { newLevel with blocks := [⟨0, defaultBlockGeo⟩] }

/-! Section: Level apply (bake) -/

/-- The physics body definition extracted from one block: position,
box half-extents and body angle. -/
structure BodyDef where
  px : ℝ
  py : ℝ
  hw : ℝ
  hh : ℝ
  angle : ℝ

/-- The body baked from a block transform in `Level.apply`: the center is
the transform of `(0, 0)`; the half-width and half-height are the distances
from the center to the transforms of `(0.5, 0)` and `(0, 0.5)`; the angle
is the `atan2` of the transformed right half-edge vector. -/
noncomputable def bakeBlock (t : Mx) : BodyDef :=
  let cx := (t.apply 0 0).1
  let cy := (t.apply 0 0).2
  let wx := (t.apply 0.5 0).1
  let wy := (t.apply 0.5 0).2
  let hx := (t.apply 0 0.5).1
  let hy := (t.apply 0 0.5).2
  ⟨cx, cy,
   Real.sqrt ((wx - cx) * (wx - cx) + (wy - cy) * (wy - cy)),
   Real.sqrt ((hx - cx) * (hx - cx) + (hy - cy) * (hy - cy)),
   atan2 (wy - cy) (wx - cx)⟩

/-- Source `Level.apply`: one physics body is created per block, in order. -/
noncomputable def levelApplyBodies (l : Level) : List BodyDef :=
  l.blocks.map fun b => bakeBlock b.T

/-! Section: The platform (block) editor -/

/-- The bounding transform built by a creation drag over the rectangle
`[minx, maxx] × [miny, maxy]`: translate the unit square by `(0.5, 0.5)`,
scale by the rectangle extents, translate to the rectangle's low corner. -/
noncomputable def dragBlockT (minx miny maxx maxy : ℝ) : Mx :=
  ((Mx.id.translate 0.5 0.5).scale (maxx - minx) (maxy - miny)).translate
    minx miny

/-- The transform of a block with center `(cx, cy)`, half-extents
`(hw, hh)` and angle zero, built as the editor would from the drag corners
`(cx - hw, cy - hh)` and `(cx + hw, cy + hh)`. -/
noncomputable def mkBlockT (cx cy hw hh : ℝ) : Mx :=
  dragBlockT (cx - hw) (cy - hh) (cx + hw) (cy + hh)

/-- Source `PlatformEditor` state: the in-progress block's transform, if any, and
the initially clicked point. -/
structure PEState where
  creating : Option Mx
  cpinx : ℝ
  cpiny : ℝ

/-- One `PlatformEditor.Update` step, given the held state of the left
mouse button and the cursor's world position: while pressed, start a block
at the cursor if none is in progress and grow it to the bounding transform
of the drag rectangle; on release, commit the in-progress block to the block
list. Returns the new editor state and block-transform list. -/
noncomputable def platformEditorUpdate (p : PEState) (blocks : List Mx)
    (pressed : Bool) (wx wy : ℝ) : PEState × List Mx :=
  if pressed then
    let p1 : PEState :=
      match p.creating with
      | none => ⟨some ((Mx.id.scale 0 0).translate wx wy), wx, wy⟩
      | some _ => p
    let minx := min wx p1.cpinx
    let maxx := max wx p1.cpinx
    let miny := min wy p1.cpiny
    let maxy := max wy p1.cpiny
    ({ p1 with creating := some (dragBlockT minx miny maxx maxy) }, blocks)
  else
    match p.creating with
    | some g => (⟨none, p.cpinx, p.cpiny⟩, blocks ++ [g])
    | none => (p, blocks)

/-! Section: The `Typer` widget and the art editor -/

/-- Source `Typer` state: the accumulated command runes, whether the widget is
typing, and the placeholder text. -/
structure TyperState where
  cmd : List Char
  typ : Bool
  placeholder : String

/-- The per-frame inputs consumed by the typer and the editor:
edge-triggered key clicks, the held meta key, and the typed characters. -/
structure FrameInput where
  enterClicked : Bool
  backspaceClicked : Bool
  chars : List Char
  metaPressed : Bool
  sClicked : Bool
  lClicked : Bool
  pClicked : Bool
  aClicked : Bool
  rClicked : Bool

/-- The result of one `Typer.Update`: the new state, the completed message
(empty when none), and whether the typer is typing this frame. -/
structure TyperOut where
  st : TyperState
  msg : String
  typing : Bool

/-- The typing branch of `Typer.Update`: erase the last rune on backspace
(if any), append the frame's typed characters, report typing. -/
def typingFrame (t : TyperState) (i : FrameInput) : TyperOut :=
  let c1 := if decide (t.cmd ≠ []) && i.backspaceClicked
    then t.cmd.dropLast else t.cmd
  ⟨{ t with cmd := c1 ++ i.chars }, "", true⟩

/-- Source `Typer.Update`: Enter while idle enters typing mode (and the typing
branch still runs that frame); Enter while typing completes the buffered
command, clears it and leaves typing mode; otherwise the typing branch runs
while typing and nothing happens while idle. -/
def typerUpdate (t : TyperState) (i : FrameInput) : TyperOut :=
  if i.enterClicked && !t.typ then
    typingFrame { t with typ := true } i
  else if i.enterClicked && t.typ then
    ⟨{ t with typ := false, cmd := [] }, String.mk t.cmd, false⟩
  else if t.typ then
    typingFrame t i
  else
    ⟨t, "", false⟩

/-- An application key command of `Editor.Update` (all of them are bound to
printable keys: S, L, P, A, R). -/
inductive ECmd where
  | save
  | load
  | play
  | subBlocks
  | subArt
  | subSelect
  | reset
  deriving Repr, DecidableEq

/-- The first key command `Editor.Update` fires for a frame's inputs, in
source order: Meta+S save, Meta+L load, P play, then the subeditor table
(L blocks, A art, S select), then R reset. -/
def editorCommand (i : FrameInput) : Option ECmd :=
  if i.sClicked && i.metaPressed then some .save
  else if i.lClicked && i.metaPressed then some .load
  else if i.pClicked then some .play
  else if i.lClicked then some .subBlocks
  else if i.aClicked then some .subArt
  else if i.sClicked then some .subSelect
  else if i.rClicked then some .reset
  else none

/-- The observable outcome of one `ArtEditor.Update`: the typer's new
state, the path handed to `AddImage` (if any), and the editor command the
frame reached (`none` when the host `Editor.Update` was not invoked or
fired nothing). -/
structure ArtOut where
  typer : TyperState
  addImagePath : Option String
  hostCmd : Option ECmd

/-- Source `ArtEditor.Update`: run the typer; while it reports typing, return
immediately (suppressing every host key command); otherwise a non-empty
completed message is handed to `AddImage`, and the host `Editor.Update`
runs. -/
def artEditorUpdate (t : TyperState) (i : FrameInput) : ArtOut :=
  let o := typerUpdate t i
  if o.typing then ⟨o.st, none, none⟩
  else ⟨o.st, if o.msg ≠ "" then some o.msg else none, editorCommand i⟩

/-! Section: The selector -/

/-- Source `Selector.hit`: invert the transform, map the click into local
coordinates and test the unit square; `none` models the inversion panic on
a singular transform (no boolean is produced). -/
noncomputable def selectorHit (x y : ℝ) (m : Mx) : Option Prop :=
  (Mx.invertOpt m).map fun mi =>
    let p := mi.apply x y;
    -0.5 ≤ p.1 ∧ p.1 ≤ 0.5 ∧ -0.5 ≤ p.2 ∧ p.2 ≤ 0.5

/-- The rotation about `(cx, cy)` by `θ`, built the way the rotating drag
does: translate the center to the origin, rotate, translate back. -/
noncomputable def rotAbout (cx cy θ : ℝ) : Mx :=
  ((Mx.id.translate (-cx) (-cy)).rotate θ).translate cx cy

/-- The `selrotating` branch of `Selector.Update`: read the object's center
and normalized local up-vector, the normalized center-to-cursor vector, and
re-anchor a rotation by the angle difference at the object's center. -/
noncomputable def rotatingStep (t : Mx) (wx wy : ℝ) : Mx :=
  let cx := (t.apply 0 0).1
  let cy := (t.apply 0 0).2
  let rotv := normalize ((t.apply 0 0.5).1 - cx, (t.apply 0 0.5).2 - cy)
  let curang := atan2 rotv.2 rotv.1
  let crotv := normalize (wx - cx, wy - cy)
  let newang := atan2 crotv.2 crotv.1
  ((t.translate (-cx) (-cy)).rotate (newang - curang)).translate cx cy

/-- The camera fields the spawn adapter reads: screen width in pixels and
the visible world half-width. -/
structure Camera where
  sw : Nat
  hw : ℝ

/-- The camera's pixel-to-world ratio, as recomputed by the selector every
frame. -/
noncomputable def pxToWorld (c : Camera) : ℝ := 2 * c.hw / (c.sw : ℝ)

/-- Source `SpawnSelector.Transform`: a square of side `2*hw*20/sw` world units
(20 screen pixels) translated to the level's spawn point. -/
noncomputable def spawnSelectorTransform (c : Camera) (l : Level) : Mx :=
  (Mx.id.scale (2 * c.hw * 20 / (c.sw : ℝ)) (2 * c.hw * 20 / (c.sw : ℝ))
    ).translate l.spawn.1 l.spawn.2

/-- Source `SpawnSelector.SetTransform`: keep only the written transform's image
of the origin as the new spawn point. -/
noncomputable def spawnSelectorSetTransform (l : Level) (m : Mx) : Level :=
  { l with spawn := m.apply 0 0 }

/-- The first index holding the given pointer, as the deletion loop finds
it (`found` stays `-1`, here `none`, when the pointer is absent). -/
def findByPid (pid : Nat) : List Nat → Option Nat
  | [] => none
  | x :: xs =>
    if x = pid then some 0 else (findByPid pid xs).map (· + 1)

/-- Source `BlockSelector.Delete`: find the selected block by pointer identity and
splice it out of the level's block list; `none` models the slice panic when
the pointer is absent (`found = -1`). -/
noncomputable def blockSelectorDelete (l : Level) (pid : Nat) :
    Option Level :=
  (findByPid pid (l.blocks.map Block.pid)).map fun i =>
    { l with blocks := l.blocks.take i ++ l.blocks.drop (i + 1) }

/-- Source `ArtSelector.Delete`: find the selected art by pointer identity and
splice it out of the level's art list; `none` models the slice panic when
the pointer is absent. -/
noncomputable def artSelectorDelete (l : Level) (pid : Nat) :
    Option Level :=
  (findByPid pid (l.art.map Art.pid)).map fun i =>
    { l with art := l.art.take i ++ l.art.drop (i + 1) }

/-! Section: Basic lemmas -/

theorem readUint64BE_putUint64BE (n : Nat) (h : n < 2 ^ 64) :
    readUint64BE (putUint64BE n) = n := by
  simp only [readUint64BE, putUint64BE, List.take, List.foldl]
  omega

theorem gobEncode_length (m : MxBits) : (gobEncode m).length = 48 := by
  simp [gobEncode, putUint64BE]

theorem gobDecode_gobEncode (m : MxBits) (h00 : m.e00 < 2 ^ 64)
    (h01 : m.e01 < 2 ^ 64) (h02 : m.e02 < 2 ^ 64) (h10 : m.e10 < 2 ^ 64)
    (h11 : m.e11 < 2 ^ 64) (h12 : m.e12 < 2 ^ 64) :
    gobDecode (gobEncode m) = m := by
  obtain ⟨e00, e01, e02, e10, e11, e12⟩ := m
  simp only at h00 h01 h02 h10 h11 h12
  simp only [gobEncode, gobDecode, putUint64BE, List.cons_append,
    List.nil_append, List.drop_succ_cons, List.drop_zero, readUint64BE,
    List.take, List.foldl, MxBits.mk.injEq]
  refine ⟨by omega, by omega, by omega, by omega, by omega, by omega⟩

theorem complex_mk_ofReal (x : ℝ) : (⟨x, 0⟩ : ℂ) = (x : ℂ) := by
  apply Complex.ext <;> simp

theorem atan2_zero_of_nonneg (x : ℝ) (h : 0 ≤ x) : atan2 0 x = 0 := by
  unfold atan2
  rw [complex_mk_ofReal]
  exact Complex.arg_ofReal_of_nonneg h

theorem bakeBlock_diag (w h tx ty : ℝ) (hw : 0 ≤ w) (hh : 0 ≤ h) :
    bakeBlock ⟨w, 0, 0, h, tx, ty⟩ = ⟨tx, ty, w / 2, h / 2, 0⟩ := by
  simp only [bakeBlock, Mx.apply]
  norm_num [BodyDef.mk.injEq]
  have hw2 : (0 : ℝ) ≤ w * (1 / 2) := by linarith
  have hh2 : (0 : ℝ) ≤ h * (1 / 2) := by linarith
  refine ⟨?_, ?_, ?_⟩
  · rw [Real.sqrt_mul_self hw2]; ring
  · rw [Real.sqrt_mul_self hh2]; ring
  · exact atan2_zero_of_nonneg _ hw2

theorem dragBlockT_eq (minx miny maxx maxy : ℝ) :
    dragBlockT minx miny maxx maxy =
      ⟨maxx - minx, 0, 0, maxy - miny,
       (maxx - minx) * 0.5 + minx, (maxy - miny) * 0.5 + miny⟩ := by
  simp only [dragBlockT, Mx.id, Mx.translate, Mx.scale, Mx.mk.injEq]
  norm_num

theorem bakeBlock_dragBlockT (minx miny maxx maxy : ℝ) (h1 : minx ≤ maxx)
    (h2 : miny ≤ maxy) :
    bakeBlock (dragBlockT minx miny maxx maxy) =
      ⟨(minx + maxx) / 2, (miny + maxy) / 2,
       (maxx - minx) / 2, (maxy - miny) / 2, 0⟩ := by
  rw [dragBlockT_eq,
    bakeBlock_diag _ _ _ _ (by linarith) (by linarith)]
  simp only [BodyDef.mk.injEq, and_true]
  exact ⟨by ring, by ring⟩

theorem normalize_atan2 (v : ℝ × ℝ) :
    atan2 (normalize v).2 (normalize v).1 = atan2 v.2 v.1 := by
  unfold normalize atan2
  by_cases h : Real.sqrt (v.1 * v.1 + v.2 * v.2) = 0
  · have hnn : 0 ≤ v.1 * v.1 + v.2 * v.2 :=
      add_nonneg (mul_self_nonneg _) (mul_self_nonneg _)
    have hsum : v.1 * v.1 + v.2 * v.2 = 0 :=
      le_antisymm (Real.sqrt_eq_zero'.mp h) hnn
    have hv1 : v.1 = 0 := by nlinarith [mul_self_nonneg v.1, mul_self_nonneg v.2]
    have hv2 : v.2 = 0 := by nlinarith [mul_self_nonneg v.1, mul_self_nonneg v.2]
    simp [hv1, hv2]
  · have hpos : 0 < Real.sqrt (v.1 * v.1 + v.2 * v.2) :=
      lt_of_le_of_ne (Real.sqrt_nonneg _) (Ne.symm h)
    have hinv : 0 < (Real.sqrt (v.1 * v.1 + v.2 * v.2))⁻¹ := inv_pos.mpr hpos
    have hmk : (⟨v.1 / Real.sqrt (v.1 * v.1 + v.2 * v.2),
        v.2 / Real.sqrt (v.1 * v.1 + v.2 * v.2)⟩ : ℂ) =
        (((Real.sqrt (v.1 * v.1 + v.2 * v.2))⁻¹ : ℝ) : ℂ) * ⟨v.1, v.2⟩ := by
      apply Complex.ext <;>
        simp only [Complex.mul_re, Complex.mul_im, Complex.ofReal_re,
          Complex.ofReal_im] <;>
        ring
    rw [hmk, Complex.arg_real_mul _ hinv]

theorem translate_rotate_translate (t : Mx) (cx cy θ : ℝ) :
    ((t.translate (-cx) (-cy)).rotate θ).translate cx cy =
      Mx.mul (rotAbout cx cy θ) t := by
  simp only [Mx.translate, Mx.rotate, Mx.mul, rotAbout, Mx.id, Mx.mk.injEq]
  refine ⟨by ring, by ring, by ring, by ring, by ring, by ring⟩

theorem findByPid_append (l1 : List Nat) (p : Nat) (l2 : List Nat)
    (hfresh : ∀ x ∈ l1, x ≠ p) :
    findByPid p (l1 ++ p :: l2) = some l1.length := by
  induction l1 with
  | nil => simp [findByPid]
  | cons x xs ih =>
    simp only [List.cons_append, findByPid, List.append_eq]
    rw [if_neg (hfresh x (by simp))]
    rw [ih fun y hy => hfresh y (by simp [hy])]
    simp

theorem findByPid_map_splice {α : Type} (pid : α → Nat) (l1 : List α)
    (b : α) (l2 : List α) (hfresh : ∀ x ∈ l1, pid x ≠ pid b) :
    findByPid (pid b) ((l1 ++ b :: l2).map pid) = some l1.length := by
  rw [List.map_append, List.map_cons]
  have := findByPid_append (l1.map pid) (pid b) (l2.map pid) ?_
  · rwa [List.length_map] at this
  · intro x hx
    obtain ⟨y, hy, rfl⟩ := List.mem_map.mp hx
    exact hfresh y hy

theorem splice_take_drop {α : Type} (l1 : List α) (b : α) (l2 : List α) :
    (l1 ++ b :: l2).take l1.length ++ (l1 ++ b :: l2).drop (l1.length + 1)
      = l1 ++ l2 := by
  rw [List.take_left]
  rw [show l1 ++ b :: l2 = (l1 ++ [b]) ++ l2 by simp]
  rw [List.drop_left' (by simp)]

/-! Section: Claim theorems -/

/-- A level holding one block, for exercising the load failure path. -/
noncomputable def levelWithOneBlock : Level :=
  { newLevel with blocks := [⟨1, Mx.id⟩] }

/-- C1: the claim fails on the code. `Level.load` overwrites the receiver
with `NewLevel()` before the file is even opened, so at the failing input —
a level holding one block, loading a missing file — the in-memory level is
reset (the prior state is lost), and the interactive load tool returns the
error, which `Root.Update`, `ebiten.RunGame` and `main` turn into process
termination. -/
theorem load_failure_mutates_and_terminates :
    (levelLoad levelWithOneBlock .missing).1 = newLevel ∧
    (levelLoad levelWithOneBlock .missing).1 ≠ levelWithOneBlock ∧
    (levelLoad levelWithOneBlock .missing).2 = some .openFailed ∧
    (saveLoadEditorUpdate levelWithOneBlock .missing).2 =
      .error .openFailed ∧
    processTerminates
      (saveLoadEditorUpdate levelWithOneBlock .missing).2 = true := by
  refine ⟨rfl, ?_, rfl, rfl, rfl⟩
  intro hEq
  have hlen := congrArg (fun l => l.blocks.length) hEq
  simp [levelLoad, newLevel, levelWithOneBlock] at hlen

/-- A level holding one block built from center `(1, 2)` and half-extents
`(3, 4)`. -/
noncomputable def exampleLevel : Level :=
  { newLevel with blocks := [⟨0, mkBlockT 1 2 3 4⟩] }

/-- C2: `Level.apply` creates exactly one physics body per block, whose
position, half-width, half-height and angle are extracted from the block's
transform as center `T(0,0)`, the distances from the center to `T(0.5,0)`
and `T(0,0.5)`, and the `atan2` of the right half-edge vector; and for a
block built from center `(cx, cy)`, half-extents `(hw, hh)` and angle zero
this decomposition recovers `(cx, cy, hw, hh)` and angle `0` exactly. -/
theorem level_apply_body_per_block (l : Level) (i : Nat) (cx cy hw hh : ℝ)
    (h1 : 0 ≤ hw) (h2 : 0 ≤ hh) :
    (levelApplyBodies l).length = l.blocks.length ∧
    (levelApplyBodies l).get? i =
      (l.blocks.get? i).map (fun b => bakeBlock b.T) ∧
    bakeBlock (mkBlockT cx cy hw hh) = ⟨cx, cy, hw, hh, 0⟩ := by
  refine ⟨by simp [levelApplyBodies], by simp [levelApplyBodies], ?_⟩
  unfold mkBlockT
  rw [bakeBlock_dragBlockT _ _ _ _ (by linarith) (by linarith)]
  simp only [BodyDef.mk.injEq, and_true]
  refine ⟨by ring, by ring, by ring, by ring⟩

/-- Witness for C2 at a level holding one block and concrete geometry. -/
theorem level_apply_body_per_block_witness :
    (0 : ℝ) ≤ 3 ∧ (0 : ℝ) ≤ 4 ∧
    ((levelApplyBodies exampleLevel).length =
        exampleLevel.blocks.length ∧
      (levelApplyBodies exampleLevel).get? 0 =
        (exampleLevel.blocks.get? 0).map (fun b => bakeBlock b.T) ∧
      bakeBlock (mkBlockT 1 2 3 4) = ⟨1, 2, 3, 4, 0⟩) :=
  ⟨by norm_num, by norm_num,
   level_apply_body_per_block exampleLevel 0 1 2 3 4 (by norm_num)
     (by norm_num)⟩

/-- C3: for a matrix of six finite elements, decoding the 48-byte
big-endian encoding produced by `GobEncode` reproduces the matrix
bit-for-bit, and re-encoding the decoded matrix reproduces the 48 bytes
exactly. -/
theorem mx_gob_roundtrip (m : MxBits) (h : m.Finite) :
    (gobEncode m).length = 48 ∧ gobDecode (gobEncode m) = m ∧
    gobEncode (gobDecode (gobEncode m)) = gobEncode m := by
  obtain ⟨⟨b00, _⟩, ⟨b01, _⟩, ⟨b02, _⟩, ⟨b10, _⟩, ⟨b11, _⟩, ⟨b12, _⟩⟩ := h
  have hd := gobDecode_gobEncode m b00 b01 b02 b10 b11 b12
  exact ⟨gobEncode_length m, hd, by rw [hd]⟩

/-- The bit patterns of the identity matrix: `1.0` is
`0x3FF0000000000000` and `0.0` is all-zero. -/
def exampleBits : MxBits :=
  ⟨0x3FF0000000000000, 0, 0, 0, 0x3FF0000000000000, 0⟩

/-- Witness for C3 at the identity matrix's bit patterns. -/
theorem mx_gob_roundtrip_witness :
    exampleBits.Finite ∧ gobDecode (gobEncode exampleBits) = exampleBits :=
  ⟨by decide, (mx_gob_roundtrip exampleBits (by decide)).2.1⟩

/-- C4: the claim fails on the code. At the failing input — the singular
zero-scale transform and the click `(0, 0)` — `Selector.hit` inverts the
singular matrix, which fails (the engine's `Invert` panics when the
determinant is zero), so no boolean is produced at all: the hit test
crashes instead of returning false. -/
theorem hit_singular_crashes :
    Mx.det (Mx.scale Mx.id 0 0) = 0 ∧
    selectorHit 0 0 (Mx.scale Mx.id 0 0) = none := by
  have hdet : Mx.det (Mx.scale Mx.id 0 0) = 0 := by
    simp [Mx.det, Mx.scale, Mx.id]
  exact ⟨hdet, by simp [selectorHit, Mx.invertOpt, hdet]⟩

/-- Frame 1 of the drag scenario: the left button goes down with the
cursor at world `(0, 0)` and an empty block list. -/
noncomputable def dragFrame1 : PEState × List Mx :=
  platformEditorUpdate ⟨none, 0, 0⟩ [] true 0 0

/-- Frame 2: the button is held while the cursor is at world `(4, 2)`. -/
noncomputable def dragFrame2 : PEState × List Mx :=
  platformEditorUpdate dragFrame1.1 dragFrame1.2 true 4 2

/-- Frame 3: the button is released, committing the block. -/
noncomputable def dragFrame3 : PEState × List Mx :=
  platformEditorUpdate dragFrame2.1 dragFrame2.2 false 4 2

/-- C5: drag-creating a block from world `(0, 0)` to world `(4, 2)`
commits exactly the bounding transform of that rectangle, and the
apply-bake decomposition of that transform yields center `(2, 1)`,
half-width `2`, half-height `1` and angle `0`. -/
theorem drag_create_block_decomposition :
    dragFrame3.2 = [dragBlockT 0 0 4 2] ∧
    bakeBlock (dragBlockT 0 0 4 2) = ⟨2, 1, 2, 1, 0⟩ := by
  constructor
  · have h1 : dragFrame1 = (⟨some (dragBlockT 0 0 0 0), 0, 0⟩, []) := by
      norm_num [dragFrame1, platformEditorUpdate, min_def, max_def]
    have h2 : dragFrame2 = (⟨some (dragBlockT 0 0 4 2), 0, 0⟩, []) := by
      rw [dragFrame2, h1]
      norm_num [platformEditorUpdate, min_def, max_def]
    rw [dragFrame3, h2]
    norm_num [platformEditorUpdate]
  · rw [bakeBlock_dragBlockT 0 0 4 2 (by norm_num) (by norm_num)]
    norm_num

/-- C6: one update step of the rotating drag state on an object with a
non-singular transform keeps the object's center — its transform's image
of the origin — fixed, and replaces the transform by the rotation about
that center through the difference between the cursor's angle about the
center and the angle of the object's local up-vector, composed with the
original transform. -/
theorem rotating_step_about_center (t : Mx) (wx wy : ℝ)
    (_h : t.det ≠ 0) :
    (rotatingStep t wx wy).apply 0 0 = t.apply 0 0 ∧
    rotatingStep t wx wy =
      Mx.mul
        (rotAbout (t.apply 0 0).1 (t.apply 0 0).2
          (atan2 (wy - (t.apply 0 0).2) (wx - (t.apply 0 0).1) -
            atan2 ((t.apply 0 0.5).2 - (t.apply 0 0).2)
              ((t.apply 0 0.5).1 - (t.apply 0 0).1))) t := by
  have hmain : rotatingStep t wx wy =
      Mx.mul
        (rotAbout (t.apply 0 0).1 (t.apply 0 0).2
          (atan2 (wy - (t.apply 0 0).2) (wx - (t.apply 0 0).1) -
            atan2 ((t.apply 0 0.5).2 - (t.apply 0 0).2)
              ((t.apply 0 0.5).1 - (t.apply 0 0).1))) t := by
    simp only [rotatingStep]
    rw [normalize_atan2, normalize_atan2]
    exact translate_rotate_translate t _ _ _
  refine ⟨?_, hmain⟩
  rw [hmain]
  simp only [Mx.mul, rotAbout, Mx.translate, Mx.rotate, Mx.id, Mx.apply,
    Prod.mk.injEq]
  constructor <;> ring

/-- Witness for C6 at the identity transform and cursor `(1, 0)`. -/
theorem rotating_step_about_center_witness :
    Mx.det Mx.id ≠ 0 ∧
    ((rotatingStep Mx.id 1 0).apply 0 0 = Mx.id.apply 0 0 ∧
      rotatingStep Mx.id 1 0 =
        Mx.mul
          (rotAbout (Mx.id.apply 0 0).1 (Mx.id.apply 0 0).2
            (atan2 (0 - (Mx.id.apply 0 0).2) (1 - (Mx.id.apply 0 0).1) -
              atan2 ((Mx.id.apply 0 0.5).2 - (Mx.id.apply 0 0).2)
                ((Mx.id.apply 0 0.5).1 - (Mx.id.apply 0 0).1))) Mx.id) :=
  ⟨by norm_num [Mx.det, Mx.id],
   rotating_step_about_center Mx.id 1 0 (by norm_num [Mx.det, Mx.id])⟩

/-- C7: while the typer stays in its typing state through a frame (no
Enter click), its update reports typing and returns no message, and the
art editor suppresses the whole frame: `AddImage` is not attempted and no
host editor key command fires; submitting an empty buffer via Enter
returns the empty string and attempts no command. -/
theorem typer_suppression (t : TyperState) (i : FrameInput)
    (h : t.typ = true) :
    (i.enterClicked = false →
      (typerUpdate t i).typing = true ∧ (typerUpdate t i).msg = "" ∧
      (artEditorUpdate t i).hostCmd = none ∧
      (artEditorUpdate t i).addImagePath = none) ∧
    (i.enterClicked = true → t.cmd = [] →
      (typerUpdate t i).msg = "" ∧
      (artEditorUpdate t i).addImagePath = none) := by
  constructor
  · intro he
    simp [typerUpdate, typingFrame, artEditorUpdate, h, he]
  · intro he hc
    simp [typerUpdate, typingFrame, artEditorUpdate, h, he, hc]

/-- The typer in typing state with an empty buffer. -/
def typingState : TyperState := ⟨[], true, ""⟩

/-- A frame with no keys clicked and no characters typed. -/
def quietFrame : FrameInput :=
  ⟨false, false, [], false, false, false, false, false, false⟩

/-- Witness for C7 at a typing-state typer and a quiet frame. -/
theorem typer_suppression_witness :
    typingState.typ = true ∧
    ((quietFrame.enterClicked = false →
      (typerUpdate typingState quietFrame).typing = true ∧
      (typerUpdate typingState quietFrame).msg = "" ∧
      (artEditorUpdate typingState quietFrame).hostCmd = none ∧
      (artEditorUpdate typingState quietFrame).addImagePath = none) ∧
    (quietFrame.enterClicked = true → typingState.cmd = [] →
      (typerUpdate typingState quietFrame).msg = "" ∧
      (artEditorUpdate typingState quietFrame).addImagePath = none)) :=
  ⟨rfl, typer_suppression typingState quietFrame rfl⟩

/-- C8: the spawn adapter's synthesized transform maps any point — hence
the unit square — by scaling with the side length `20` pixels converted to
world units through the camera's pixel-to-world ratio and translating to
the spawn point; and writing a transform back updates only the spawn
point, to the transform's image of the origin (its translation component),
discarding the rotation and scale parts. -/
theorem spawn_selector_adapter (c : Camera) (l : Level) (m : Mx)
    (x y : ℝ) :
    (spawnSelectorTransform c l).apply x y =
      (l.spawn.1 + 20 * pxToWorld c * x,
       l.spawn.2 + 20 * pxToWorld c * y) ∧
    spawnSelectorSetTransform l m = { l with spawn := m.apply 0 0 } ∧
    (spawnSelectorSetTransform l m).spawn = (m.tx, m.ty) := by
  refine ⟨?_, rfl, ?_⟩
  · simp only [spawnSelectorTransform, Mx.id, Mx.scale, Mx.translate,
      Mx.apply, pxToWorld, Prod.mk.injEq]
    constructor <;> ring
  · simp only [spawnSelectorSetTransform, Mx.apply, Prod.mk.injEq]
    constructor <;> ring

/-- C9: when loading the autosave fails for any reason, `NewEditor` still
returns an editor holding a fresh default level — empty trigger map, no
art, origin spawn — whose single block's transform is the unit square
scaled by `(100, 0.5)` with no translation. -/
theorem new_editor_fallback (f : LoadFile)
    (h : (levelLoad newLevel f).2 ≠ none) :
    newEditor f = { newLevel with blocks := [⟨0, defaultBlockGeo⟩] } ∧
    (newEditor f).art = [] ∧ (newEditor f).triggers = [] ∧
    (newEditor f).spawn = (0, 0) ∧
    (newEditor f).blocks.map Block.T = [defaultBlockGeo] ∧
    defaultBlockGeo = ⟨100, 0, 0, 0.5, 0, 0⟩ := by
  have hgeo : defaultBlockGeo = ⟨100, 0, 0, 0.5, 0, 0⟩ := by
    simp only [defaultBlockGeo, Mx.scale, Mx.id, Mx.mk.injEq]
    norm_num
  cases f with
  | missing => exact ⟨rfl, rfl, rfl, rfl, rfl, hgeo⟩
  | malformed => exact ⟨rfl, rfl, rfl, rfl, rfl, hgeo⟩
  | ok l => simp [levelLoad] at h

/-- Witness for C9 at a missing autosave file. -/
theorem new_editor_fallback_witness :
    (levelLoad newLevel .missing).2 ≠ none ∧
    newEditor .missing =
      { newLevel with blocks := [⟨0, defaultBlockGeo⟩] } ∧
    (newEditor .missing).art = [] ∧
    (newEditor .missing).triggers = [] ∧
    (newEditor .missing).spawn = (0, 0) ∧
    (newEditor .missing).blocks.map Block.T = [defaultBlockGeo] ∧
    defaultBlockGeo = ⟨100, 0, 0, 0.5, 0, 0⟩ :=
  ⟨by simp [levelLoad], new_editor_fallback .missing (by simp [levelLoad])⟩

/-- C10: deleting a selected block (resp. art) whose pointer occurs in the
level's block (art) list — first at the position split off by `l1`/`l2`
(`a1`/`a2`) — removes exactly that element: the list becomes the two
surrounding segments in order, one element shorter, and every other level
field is unchanged. -/
theorem selector_delete_splices (l : Level) (b : Block)
    (l1 l2 : List Block) (a : Art) (a1 a2 : List Art)
    (hb : l.blocks = l1 ++ b :: l2) (hbf : ∀ x ∈ l1, x.pid ≠ b.pid)
    (ha : l.art = a1 ++ a :: a2) (haf : ∀ x ∈ a1, x.pid ≠ a.pid) :
    blockSelectorDelete l b.pid = some { l with blocks := l1 ++ l2 } ∧
    (l1 ++ l2).length + 1 = l.blocks.length ∧
    artSelectorDelete l a.pid = some { l with art := a1 ++ a2 } ∧
    (a1 ++ a2).length + 1 = l.art.length := by
  refine ⟨?_, ?_, ?_, ?_⟩
  · simp only [blockSelectorDelete, hb,
      findByPid_map_splice Block.pid l1 b l2 hbf, Option.map_some']
    rw [splice_take_drop]
  · rw [hb]; simp [List.length_append]; omega
  · simp only [artSelectorDelete, ha,
      findByPid_map_splice Art.pid a1 a a2 haf, Option.map_some']
    rw [splice_take_drop]
  · rw [ha]; simp [List.length_append]; omega

/-- A level holding two blocks and one art entry, for exercising
deletion. -/
noncomputable def deletionLevel : Level :=
  { newLevel with
    blocks := [⟨1, Mx.id⟩, ⟨2, Mx.id⟩],
    art := [⟨3, Mx.id, "grass.png"⟩] }

/-- Witness for C10: delete the second block and the only art entry of a
concrete level. -/
theorem selector_delete_splices_witness :
    deletionLevel.blocks = [⟨1, Mx.id⟩] ++ (⟨2, Mx.id⟩ : Block) :: [] ∧
    (∀ x ∈ [(⟨1, Mx.id⟩ : Block)], x.pid ≠ (⟨2, Mx.id⟩ : Block).pid) ∧
    deletionLevel.art = [] ++ (⟨3, Mx.id, "grass.png"⟩ : Art) :: [] ∧
    (blockSelectorDelete deletionLevel 2 =
        some { deletionLevel with blocks := [⟨1, Mx.id⟩] ++ [] } ∧
      ([(⟨1, Mx.id⟩ : Block)] ++ []).length + 1 =
        deletionLevel.blocks.length ∧
      artSelectorDelete deletionLevel 3 =
        some { deletionLevel with art := [] ++ [] } ∧
      (([] : List Art) ++ []).length + 1 = deletionLevel.art.length) :=
  ⟨rfl, by simp, rfl,
   selector_delete_splices deletionLevel ⟨2, Mx.id⟩ [⟨1, Mx.id⟩] []
     ⟨3, Mx.id, "grass.png"⟩ [] [] rfl (by simp) rfl (by simp)⟩

end Gobananas
